import Mathlib

/-!
Verification of the ilifu user-database model (`src/models.py`).

The source declares a relational schema with SQLAlchemy: tables `ilifu_user`,
`project` and `project_user`, together with the Python constructors of the
mapped classes and a schema-creation entry point (`Base.metadata.create_all`).
We embed the schema shallowly: rows are records, the database is lists of
rows, and an insert/update operation enforces exactly the column constraints
declared in the source (NOT NULL via typing or an explicit check, `unique=True`,
`String(n)` length limits, `ForeignKey`, `server_default`, `onupdate`).
Timestamps are abstracted as natural-number clock values supplied to each
operation (the source delegates them to `func.now()`).
-/

deriving instance DecidableEq for Except

namespace IlifuDB

/-- Errors surfaced by the backing store at write time (spec section 7:
constraint violations propagate to the caller). -/
inductive DBError where
  | uniqueViolation
  | notNullViolation
  | lengthViolation
  | foreignKeyViolation
deriving DecidableEq

/-- A stored row of table `ilifu_user` (models.py lines 68-83).
Columns declared `nullable=False` are plain values, nullable columns are
`Option`.  `created` is `DateTime ... server_default=func.now()`;
`last_updated` is `DateTime ... onupdate=func.now()` and has no insert
default, so it is `Option` and starts out null. -/
structure UserRow where
  id : Nat
  enabled : Bool
  username : String
  email : String
  password : Option String
  public_key : Option String
  first_name : String
  last_name : String
  contact_number : Option String
  institution : String
  created : Nat
  last_updated : Option Nat
deriving DecidableEq

/-- The `IlifuUser` ORM object as built by `IlifuUser.__init__`
(models.py lines 85-95): exactly the fields that constructor assigns. -/
structure IlifuUser where
  username : String
  email : String
  password : Option String
  public_key : Option String
  first_name : String
  last_name : String
  contact_number : Option String
  institution : String
  enabled : Bool
deriving DecidableEq

/-- `IlifuUser.__init__(self, username, email, password, first_name,
last_name, institution, contact_number=None, public_key=None,
enabled=False)` — models.py lines 85-95, with the source's default values
for the three optional parameters. -/
def IlifuUser.init (username email : String) (password : Option String)
    (first_name last_name institution : String)
    (contact_number : Option String := none)
    (public_key : Option String := none)
    (enabled : Bool := false) : IlifuUser :=
  ⟨username, email, password, public_key, first_name, last_name,
   contact_number, institution, enabled⟩

/-- A stored row of table `project` (models.py lines 123-137). -/
structure ProjectRow where
  id : Nat
  enabled : Bool
  name : String
  pi_user_id : Option Nat
  co_pi_user_id : Option Nat
  admin_user_id : Option Nat
  resource_tree_posn : List Int
  parent_resource_fraction : ℚ
  allocated_resources : Option String
  resource_limits : Option String
  created : Nat
  last_updated : Option Nat
deriving DecidableEq

/-- The `Project` ORM object.  `Project.__init__` (models.py lines 139-147)
assigns only `name`, `pi_user_id`, `resource_tree_posn`,
`parent_resource_fraction`, `allocated_resources` and `resource_limits`;
`enabled`, `co_pi_user_id` and `admin_user_id` are never touched by the
constructor, so here they are `Option` fields left `none` by `Project.init`
(an unset attribute means the column is omitted from the INSERT and the
server default, if any, applies).  `parent_resource_fraction` is `Option`
at the object level because a Python caller may pass `None`, which the
store then rejects (the column is `nullable=False`). -/
structure Project where
  name : String
  pi_user_id : Option Nat
  resource_tree_posn : List Int
  parent_resource_fraction : Option ℚ
  allocated_resources : Option String
  resource_limits : Option String
  enabled : Option Bool
  co_pi_user_id : Option Nat
  admin_user_id : Option Nat
deriving DecidableEq

/-- `Project.__init__(self, name, pi_user_id, resource_tree_posn,
parent_resource_fraction, allocated_resources=None, resource_limits=None)`
— models.py lines 139-147.  `enabled`, `co_pi_user_id` and `admin_user_id`
are not parameters and stay unset. -/
def Project.init (name : String) (pi_user_id : Option Nat)
    (resource_tree_posn : List Int)
    (parent_resource_fraction : Option ℚ)
    (allocated_resources : Option String := none)
    (resource_limits : Option String := none) : Project :=
  ⟨name, pi_user_id, resource_tree_posn, parent_resource_fraction,
   allocated_resources, resource_limits, none, none, none⟩

/-- A stored row of association table `project_user` (models.py lines
157-163): timestamps plus the two foreign keys forming the composite
primary key. -/
structure MembershipRow where
  created : Nat
  last_updated : Option Nat
  project_id : Nat
  user_id : Nat
deriving DecidableEq

/-- The database state: the three tables plus the id sequences backing the
`Integer, primary_key=True` columns. -/
structure DB where
  users : List UserRow
  projects : List ProjectRow
  memberships : List MembershipRow
  nextUserId : Nat
  nextProjectId : Nat
deriving DecidableEq

/-- Length constraint of a nullable `String(n)` column: a NULL value
always fits, a present value must have at most `n` characters. -/
def optLenOk : Option String → Nat → Prop
  | none, _ => True
  | some s, n => s.length ≤ n

instance (o : Option String) (n : Nat) : Decidable (optLenOk o n) :=
  match o with
  | none => isTrue trivial
  | some s => Nat.decLe s.length n

/-- The `String(n)` limits of `ilifu_user` (models.py lines 73-79):
`username`, `email`, `first_name`, `last_name` are `String(120)`,
`password` is `String(128)`, `contact_number` is `String(20)`
(`public_key` and `institution` are `Text`, unbounded). -/
def userLenOk (u : IlifuUser) : Prop :=
  u.username.length ≤ 120 ∧ u.email.length ≤ 120 ∧ optLenOk u.password 128 ∧
  u.first_name.length ≤ 120 ∧ u.last_name.length ≤ 120 ∧
  optLenOk u.contact_number 20

instance (u : IlifuUser) : Decidable (userLenOk u) := by
  unfold userLenOk; infer_instance

/-- The row written by a successful INSERT into `ilifu_user` at clock `t`:
the id comes from the sequence, `created` from its `server_default`
(`func.now()`), `last_updated` starts NULL, all other columns from the
ORM object. -/
def userRowOf (db : DB) (u : IlifuUser) (t : Nat) : UserRow :=
  ⟨db.nextUserId, u.enabled, u.username, u.email, u.password, u.public_key,
   u.first_name, u.last_name, u.contact_number, u.institution, t, none⟩

/-- INSERT into `ilifu_user`: rejected on a duplicate `username`
(`unique=True`, line 73) or an over-length `String(n)` value; otherwise the
new row is appended and the id sequence advanced. -/
def insertUser (db : DB) (u : IlifuUser) (t : Nat) : Except DBError DB :=
  if ∃ r ∈ db.users, r.username = u.username then
    .error .uniqueViolation
  else if userLenOk u then
    .ok ⟨db.users ++ [userRowOf db u t], db.projects, db.memberships,
         db.nextUserId + 1, db.nextProjectId⟩
  else
    .error .lengthViolation

/-- A nullable `ForeignKey('ilifu_user.id')` value is admissible when it is
NULL or references an existing user id. -/
def userFkOk (db : DB) : Option Nat → Prop
  | none => True
  | some i => ∃ r ∈ db.users, r.id = i

instance (db : DB) (o : Option Nat) : Decidable (userFkOk db o) :=
  match o with
  | none => isTrue trivial
  | some _ => List.decidableBEx _ db.users

/-- The row written by a successful INSERT into `project` at clock `t`,
given the NOT NULL `parent_resource_fraction` value `f`.  An unset
`enabled` attribute receives the column's `server_default` `true`
(line 125); unset `co_pi_user_id` / `admin_user_id` stay NULL. -/
def projectRowOf (db : DB) (p : Project) (f : ℚ) (t : Nat) : ProjectRow :=
  ⟨db.nextProjectId, p.enabled.getD true, p.name, p.pi_user_id,
   p.co_pi_user_id, p.admin_user_id, p.resource_tree_posn, f,
   p.allocated_resources, p.resource_limits, t, none⟩

/-- INSERT into `project`: rejected on a duplicate `name` (`unique=True`,
line 127), an over-length `name` (`String(128)`), a NULL
`parent_resource_fraction` (`nullable=False`, line 132), or a dangling
user reference in `pi_user_id` / `co_pi_user_id` / `admin_user_id`
(`ForeignKey('ilifu_user.id')`, lines 128-130). -/
def insertProject (db : DB) (p : Project) (t : Nat) : Except DBError DB :=
  if ∃ r ∈ db.projects, r.name = p.name then
    .error .uniqueViolation
  else if p.name.length ≤ 128 then
    match p.parent_resource_fraction with
    | none => .error .notNullViolation
    | some f =>
      if userFkOk db p.pi_user_id ∧ userFkOk db p.co_pi_user_id ∧
         userFkOk db p.admin_user_id then
        .ok ⟨db.users, db.projects ++ [projectRowOf db p f t],
             db.memberships, db.nextUserId, db.nextProjectId + 1⟩
      else
        .error .foreignKeyViolation
  else
    .error .lengthViolation

/-- INSERT into `project_user` (models.py lines 157-163): both foreign
keys must reference existing rows, and the pair `(project_id, user_id)` is
the composite primary key, so a duplicate pair is rejected. -/
def insertMembership (db : DB) (pid uid : Nat) (t : Nat) :
    Except DBError DB :=
  if (∃ r ∈ db.projects, r.id = pid) ∧ (∃ r ∈ db.users, r.id = uid) then
    if ∃ m ∈ db.memberships, m.project_id = pid ∧ m.user_id = uid then
      .error .uniqueViolation
    else
      .ok ⟨db.users, db.projects,
           db.memberships ++ [⟨t, none, pid, uid⟩],
           db.nextUserId, db.nextProjectId⟩
  else
    .error .foreignKeyViolation

/-- `true` exactly on a successful store operation. -/
def resOk : Except DBError DB → Bool
  | .ok _ => true
  | .error _ => false

/-- The mutable (non-system) columns of `ilifu_user`: everything except the
primary key and the two timestamp columns. -/
structure UserFields where
  enabled : Bool
  username : String
  email : String
  password : Option String
  public_key : Option String
  first_name : String
  last_name : String
  contact_number : Option String
  institution : String
deriving DecidableEq

/-- UPDATE of one `ilifu_user` row at clock `t`: the payload columns are
overwritten, `id` and `created` are untouched (neither has an `onupdate`),
and `last_updated` receives `func.now()` through its `onupdate` (line 83). -/
def applyUserUpdate (f : UserFields) (t : Nat) (r : UserRow) : UserRow :=
  ⟨r.id, f.enabled, f.username, f.email, f.password, f.public_key,
   f.first_name, f.last_name, f.contact_number, f.institution,
   r.created, some t⟩

/-- UPDATE the `ilifu_user` row with id `uid` (a no-op when absent). -/
def updateUser (db : DB) (uid : Nat) (f : UserFields) (t : Nat) : DB :=
  ⟨db.users.map (fun r => if r.id = uid then applyUserUpdate f t r else r),
   db.projects, db.memberships, db.nextUserId, db.nextProjectId⟩

/-- The mutable (non-system) columns of `project`. -/
structure ProjectFields where
  enabled : Bool
  name : String
  pi_user_id : Option Nat
  co_pi_user_id : Option Nat
  admin_user_id : Option Nat
  resource_tree_posn : List Int
  parent_resource_fraction : ℚ
  allocated_resources : Option String
  resource_limits : Option String
deriving DecidableEq

/-- UPDATE of one `project` row at clock `t`: payload columns overwritten,
`id` and `created` untouched, `last_updated` set by its `onupdate`
(line 137). -/
def applyProjectUpdate (f : ProjectFields) (t : Nat) (r : ProjectRow) :
    ProjectRow :=
  ⟨r.id, f.enabled, f.name, f.pi_user_id, f.co_pi_user_id, f.admin_user_id,
   f.resource_tree_posn, f.parent_resource_fraction, f.allocated_resources,
   f.resource_limits, r.created, some t⟩

/-- UPDATE the `project` row with id `pid` (a no-op when absent). -/
def updateProject (db : DB) (pid : Nat) (f : ProjectFields) (t : Nat) : DB :=
  ⟨db.users,
   db.projects.map (fun r => if r.id = pid then applyProjectUpdate f t r else r),
   db.memberships, db.nextUserId, db.nextProjectId⟩

/-! ## Schema metadata and the initializer

`Base.metadata.create_all(engine)` (models.py line 186) creates each table
of the metadata in the backing store unless a table of that name already
exists (SQLAlchemy's create-if-absent `checkfirst` behaviour); it never
drops or alters an existing table.  We embed the three table definitions
column by column and a store as the list of its table definitions. -/

/-- Column types appearing in models.py. -/
inductive ColType where
  | integer
  | boolean
  | varchar (n : Nat)
  | text
  | datetimeTz
  | intArray
  | float
deriving DecidableEq

/-- One column declaration: name, type, and the declared constraints. -/
structure ColumnDef where
  cname : String
  ctype : ColType
  nullable : Bool
  unique : Bool
  primary_key : Bool
  foreign_key : Option String
  server_default : Option String
  has_onupdate : Bool
deriving DecidableEq

/-- One table declaration. -/
structure TableDef where
  tname : String
  columns : List ColumnDef
deriving DecidableEq

/-- Table `ilifu_user` (models.py lines 68-83). -/
def ilifu_user_table : TableDef :=
  ⟨"ilifu_user",
   [⟨"id", .integer, false, false, true, none, none, false⟩,
    ⟨"enabled", .boolean, false, false, false, none, some "false", false⟩,
    ⟨"username", .varchar 120, false, true, false, none, none, false⟩,
    ⟨"email", .varchar 120, false, false, false, none, none, false⟩,
    ⟨"password", .varchar 128, true, false, false, none, none, false⟩,
    ⟨"public_key", .text, true, false, false, none, none, false⟩,
    ⟨"first_name", .varchar 120, false, false, false, none, none, false⟩,
    ⟨"last_name", .varchar 120, false, false, false, none, none, false⟩,
    ⟨"contact_number", .varchar 20, true, false, false, none, none, false⟩,
    ⟨"institution", .text, false, false, false, none, none, false⟩,
    ⟨"created", .datetimeTz, false, false, false, none, some "now()", false⟩,
    ⟨"last_updated", .datetimeTz, true, false, false, none, none, true⟩]⟩

/-- Table `project` (models.py lines 123-137). -/
def project_table : TableDef :=
  ⟨"project",
   [⟨"id", .integer, false, false, true, none, none, false⟩,
    ⟨"enabled", .boolean, false, false, false, none, some "true", false⟩,
    ⟨"name", .varchar 128, false, true, false, none, none, false⟩,
    ⟨"pi_user_id", .integer, true, false, false, some "ilifu_user.id", none, false⟩,
    ⟨"co_pi_user_id", .integer, true, false, false, some "ilifu_user.id", none, false⟩,
    ⟨"admin_user_id", .integer, true, false, false, some "ilifu_user.id", none, false⟩,
    ⟨"resource_tree_posn", .intArray, false, false, false, none, none, false⟩,
    ⟨"parent_resource_fraction", .float, false, false, false, none, none, false⟩,
    ⟨"allocated_resources", .text, true, false, false, none, none, false⟩,
    ⟨"resource_limits", .text, true, false, false, none, none, false⟩,
    ⟨"created", .datetimeTz, false, false, false, none, some "now()", false⟩,
    ⟨"last_updated", .datetimeTz, true, false, false, none, none, true⟩]⟩

/-- Table `project_user` (models.py lines 157-163). -/
def project_user_table : TableDef :=
  ⟨"project_user",
   [⟨"created", .datetimeTz, false, false, false, none, some "now()", false⟩,
    ⟨"last_updated", .datetimeTz, true, false, false, none, none, true⟩,
    ⟨"project_id", .integer, false, false, true, some "project.id", none, false⟩,
    ⟨"user_id", .integer, false, false, true, some "ilifu_user.id", none, false⟩]⟩

/-- The metadata bound to `Base`: the three declared tables. -/
def metadataTables : List TableDef :=
  [ilifu_user_table, project_table, project_user_table]

/-- A backing store, as the list of table definitions it currently holds. -/
abbrev Store := List TableDef

/-- Whether the store already holds a table of the given name. -/
def hasTable (s : Store) (n : String) : Prop :=
  ∃ td ∈ s, TableDef.tname td = n

instance (s : Store) (n : String) : Decidable (hasTable s n) :=
  List.decidableBEx _ s

/-- `Base.metadata.create_all`: for each table of the metadata, create it in
the store when no table of that name exists yet; an existing table is left
exactly as it is. -/
def createAll (s : Store) : Store :=
  metadataTables.foldl
    (fun acc td => if hasTable acc td.tname then acc else acc ++ [td]) s

end IlifuDB

namespace ResourceTree

/-- Modelled from the spec: the source has no resource-tree code, only the
documented example tree (models.py lines 12-25); spec section 4.1 describes
the operations (`validate_tree`, `absolute_share`) an implementation must
add.  A project, as the validator sees it: its resource-tree position and
its parent resource fraction (undefined for the root, which holds 100%). -/
structure SProject where
  resource_tree_posn : List Int
  parent_resource_fraction : Option ℚ
deriving DecidableEq

/-- Modelled from the spec: structural navigation "by path-prefix matching"
(spec section 4.1) — find the project at a given tree position. -/
def lookupPath (ps : List SProject) (path : List Int) : Option SProject :=
  ps.find? (fun p => p.resource_tree_posn = path)

/-- Modelled from the spec: the sum of the parent-relative fractions of the
immediate children of the node at `path` (spec section 4.1, check 4). -/
def childFracSum (ps : List SProject) (path : List Int) : ℚ :=
  ((ps.filter (fun p =>
      p.resource_tree_posn.dropLast = path ∧
      p.resource_tree_posn.length = path.length + 1)).map
    (fun p => p.parent_resource_fraction.getD 0)).sum

/-- Modelled from the spec: `validate_tree(projects)` (spec sections 3-4.1):
(1) exactly one project has position-depth 1 (the root, whose position is a
nonempty path for every project); (2) every non-root project's path minus
its last element matches an existing project's path; (3) no two projects
share an identical path; (4) for each node, the fractions of its immediate
children sum to at most 1; and every non-root project carries a parent
resource fraction in (0,1]. -/
def validTree (ps : List SProject) : Prop :=
  (ps.filter (fun p => p.resource_tree_posn.length = 1)).length = 1 ∧
  (∀ p ∈ ps, p.resource_tree_posn ≠ []) ∧
  (∀ p ∈ ps, p.resource_tree_posn.length ≠ 1 →
    ∃ q ∈ ps, q.resource_tree_posn = p.resource_tree_posn.dropLast) ∧
  (∀ p ∈ ps, ∀ q ∈ ps,
    p.resource_tree_posn = q.resource_tree_posn → p = q) ∧
  (∀ p ∈ ps, childFracSum ps p.resource_tree_posn ≤ 1) ∧
  (∀ p ∈ ps, p.resource_tree_posn.length ≠ 1 →
    p.parent_resource_fraction ≠ none ∧
    0 < p.parent_resource_fraction.getD 0 ∧
    p.parent_resource_fraction.getD 0 ≤ 1)

instance (ps : List SProject) : Decidable (validTree ps) := by
  unfold validTree; infer_instance

/-- Modelled from the spec: `absolute_share(project, projects)` (spec
section 4.1) "walks the path from the given project to root, multiplying
parent_resource_fraction at each level"; the root itself holds 100%
(fraction "undefined/100%", spec section 8); it fails (returns `none`)
when an ancestor implied by the path is missing. -/
def absoluteShare (ps : List SProject) (path : List Int) : Option ℚ :=
  match path with
  | [] => none
  | [i] => (lookupPath ps [i]).map (fun _ => (1 : ℚ))
  | i :: j :: rest =>
    match lookupPath ps (i :: j :: rest) with
    | none => none
    | some p =>
      match p.parent_resource_fraction with
      | none => none
      | some f =>
        match absoluteShare ps ((i :: j :: rest).dropLast) with
        | none => none
        | some s => some (f * s)
termination_by path.length
decreasing_by simp [List.length_dropLast]

/-- The documented example tree restricted to the chain used by the spec's
scenario: root (fraction undefined), IDIA at [1,1] with fraction 0.30,
LADUMA at [1,1,1] with fraction 0.20. -/
def specTree : List SProject :=
  [⟨[1], none⟩, ⟨[1, 1], some (3/10)⟩, ⟨[1, 1, 1], some (1/5)⟩]

/-- The LADUMA node of `specTree`. -/
def laduma : SProject := ⟨[1, 1, 1], some (1/5)⟩

end ResourceTree

namespace IlifuDB

/-- The empty database. -/
def db0 : DB := ⟨[], [], [], 1, 1⟩

/-- A sample user built by the constructor with the optional parameters at
their default values. -/
def aliceUser : IlifuUser :=
  IlifuUser.init "alice" "alice@example.org" (some "hash") "Alice" "Dlamini"
    "UCT"

/-- The database after inserting `aliceUser` into `db0` at clock 0. -/
def dbAlice : DB := ⟨[userRowOf db0 aliceUser 0], [], [], 2, 1⟩

/-- The root project of the documented example tree: position `[1]`, no PI,
full fraction. -/
def rootProj : Project := Project.init "root" none [1] (some 1)

/-- The database after inserting `rootProj` into `db0` at clock 0. -/
def dbRoot : DB := ⟨[], [projectRowOf db0 rootProj 1 0], [], 1, 2⟩

/-- A non-root project (position `[1,1]`, depth 2) with a NULL
`pi_user_id`. -/
def idiaNoPi : Project := Project.init "IDIA" none [1, 1] (some (3/10))

/-- The database after inserting `idiaNoPi` into `db0` at clock 0. -/
def dbIdia : DB := ⟨[], [projectRowOf db0 idiaNoPi (3/10) 0], [], 1, 2⟩

/-- A root-position project whose `parent_resource_fraction` is left
unset. -/
def rootNoFrac : Project := Project.init "root" none [1] none

/-- A project whose `parent_resource_fraction` is 2, far outside (0,1]. -/
def bigFracProj : Project := Project.init "big" none [1, 2] (some 2)

/-- A store freshly initialized from empty. -/
def initStore : Store := createAll []

/-- A sample UPDATE payload for `aliceUser`'s row (new email and contact
number). -/
def sampleFields : UserFields :=
  ⟨true, "alice", "alice@newhost.org", some "hash2", none, "Alice",
   "Dlamini", some "0210000000", "UCT"⟩

/-- A sample UPDATE payload for `rootProj`'s row (new allocated-resources
descriptor). -/
def sampleProjFields : ProjectFields :=
  ⟨true, "root", none, none, none, [1], 1, some "nodes:10", none⟩

/-- The given project with its `pi_user_id` attribute set to NULL and all
other attributes unchanged. -/
def Project.withNullPi (p : Project) : Project :=
  ⟨p.name, none, p.resource_tree_posn, p.parent_resource_fraction,
   p.allocated_resources, p.resource_limits, p.enabled, p.co_pi_user_id,
   p.admin_user_id⟩

/-- The given project with its `parent_resource_fraction` attribute set to
`q` and all other attributes unchanged. -/
def Project.withFraction (p : Project) (q : ℚ) : Project :=
  ⟨p.name, p.pi_user_id, p.resource_tree_posn, some q,
   p.allocated_resources, p.resource_limits, p.enabled, p.co_pi_user_id,
   p.admin_user_id⟩

/-- A project whose PI reference points at the user of `dbAlice`. -/
def xProj : Project := Project.init "X" (some 1) [1, 2] (some (1/2))

/-- The database after inserting `xProj` into `dbAlice` at clock 4. -/
def dbAliceX : DB :=
  ⟨[userRowOf db0 aliceUser 0], [projectRowOf dbAlice xProj (1/2) 4], [],
   2, 2⟩

/-- The database after inserting `bigFracProj` into `db0` at clock 0. -/
def dbBig : DB := ⟨[], [projectRowOf db0 bigFracProj 2 0], [], 1, 2⟩

end IlifuDB

/-! ## Theorems -/

namespace IlifuDB

theorem insertUser_ok_users {db db' : DB} {u : IlifuUser} {t : Nat}
    (h : insertUser db u t = .ok db') :
    db'.users = db.users ++ [userRowOf db u t] := by
  unfold insertUser at h
  split at h
  · simp at h
  · split at h
    · injection h with h
      subst h
      rfl
    · simp at h

theorem insertProject_ok {db db' : DB} {p : Project} {t : Nat}
    (h : insertProject db p t = .ok db') :
    ∃ f, p.parent_resource_fraction = some f ∧
      db'.projects = db.projects ++ [projectRowOf db p f t] := by
  unfold insertProject at h
  split at h
  · simp at h
  · split at h
    · split at h
      · simp at h
      · rename_i f hf
        split at h
        · injection h with h
          subst h
          exact ⟨f, hf, rfl⟩
        · simp at h
    · simp at h

/-- Claim C1: inserting a second User with an already-stored username
fails with a uniqueness constraint violation (column `username` is
`unique=True`), and inserting a second Project with an already-stored name
fails likewise (column `name` is `unique=True`). -/
theorem c1_unique_username_and_name :
    (∀ (db db1 : DB) (u1 u2 : IlifuUser) (t1 t2 : Nat),
      insertUser db u1 t1 = .ok db1 → u2.username = u1.username →
      insertUser db1 u2 t2 = .error .uniqueViolation) ∧
    (∀ (db db1 : DB) (p1 p2 : Project) (t1 t2 : Nat),
      insertProject db p1 t1 = .ok db1 → p2.name = p1.name →
      insertProject db1 p2 t2 = .error .uniqueViolation) := by
  constructor
  · intro db db1 u1 u2 t1 t2 h hname
    unfold insertUser
    rw [if_pos]
    exact ⟨userRowOf db u1 t1, by rw [insertUser_ok_users h]; simp,
           by simp [userRowOf, hname]⟩
  · intro db db1 p1 p2 t1 t2 h hname
    obtain ⟨f, _, hproj⟩ := insertProject_ok h
    unfold insertProject
    rw [if_pos]
    exact ⟨projectRowOf db p1 f t1, by rw [hproj]; simp,
           by simp [projectRowOf, hname]⟩

/-- Witness for C1 at concrete inputs: after inserting `aliceUser` into the
empty database, a second user with username "alice" is rejected with a
uniqueness violation; after inserting `rootProj`, a second project named
"root" is rejected likewise. -/
theorem c1_witness :
    insertUser dbAlice
      (IlifuUser.init "alice" "other@example.org" none "Al" "Ice" "IDIA") 7
        = .error .uniqueViolation ∧
    insertProject dbRoot (Project.init "root" none [2] (some 1)) 7
        = .error .uniqueViolation :=
  ⟨c1_unique_username_and_name.1 db0 dbAlice aliceUser
      (IlifuUser.init "alice" "other@example.org" none "Al" "Ice" "IDIA")
      0 7 (by decide) rfl,
   c1_unique_username_and_name.2 db0 dbRoot rootProj
      (Project.init "root" none [2] (some 1)) 0 7 (by decide) rfl⟩

end IlifuDB

namespace IlifuDB

/-- Claim C4: for User and Project rows, `created` is assigned exactly once,
at insert (from its `server_default func.now()`), and an UPDATE never
changes it; `last_updated` is set (through its `onupdate func.now()`) on
every mutation of the record. -/
theorem c4_timestamps :
    (∀ (db db' : DB) (u : IlifuUser) (t : Nat),
      insertUser db u t = .ok db' →
      db'.users = db.users ++ [userRowOf db u t] ∧
      (userRowOf db u t).created = t ∧
      (userRowOf db u t).last_updated = none) ∧
    (∀ (db : DB) (uid : Nat) (f : UserFields) (t : Nat) (r : UserRow),
      r ∈ db.users → r.id = uid →
      applyUserUpdate f t r ∈ (updateUser db uid f t).users ∧
      (applyUserUpdate f t r).created = r.created ∧
      (applyUserUpdate f t r).last_updated = some t) ∧
    (∀ (db db' : DB) (p : Project) (t : Nat),
      insertProject db p t = .ok db' →
      ∃ fr, db'.projects = db.projects ++ [projectRowOf db p fr t] ∧
        (projectRowOf db p fr t).created = t ∧
        (projectRowOf db p fr t).last_updated = none) ∧
    (∀ (db : DB) (pid : Nat) (f : ProjectFields) (t : Nat) (r : ProjectRow),
      r ∈ db.projects → r.id = pid →
      applyProjectUpdate f t r ∈ (updateProject db pid f t).projects ∧
      (applyProjectUpdate f t r).created = r.created ∧
      (applyProjectUpdate f t r).last_updated = some t) := by
  refine ⟨?_, ?_, ?_, ?_⟩
  · intro db db' u t h
    exact ⟨insertUser_ok_users h, rfl, rfl⟩
  · intro db uid f t r hr hid
    refine ⟨?_, rfl, rfl⟩
    exact List.mem_map.mpr ⟨r, hr, by rw [if_pos hid]⟩
  · intro db db' p t h
    obtain ⟨fr, _, hproj⟩ := insertProject_ok h
    exact ⟨fr, hproj, rfl, rfl⟩
  · intro db pid f t r hr hid
    refine ⟨?_, rfl, rfl⟩
    exact List.mem_map.mpr ⟨r, hr, by rw [if_pos hid]⟩

/-- Witness for C4: the concrete inserts of `aliceUser` and `rootProj` at
clock 0 stamp `created = 0`, and updating those rows at clock 9 keeps
`created = 0` while setting `last_updated = some 9`. -/
theorem c4_witness :
    (dbAlice.users = db0.users ++ [userRowOf db0 aliceUser 0] ∧
     (userRowOf db0 aliceUser 0).created = 0 ∧
     (userRowOf db0 aliceUser 0).last_updated = none) ∧
    (applyUserUpdate sampleFields 9 (userRowOf db0 aliceUser 0) ∈
        (updateUser dbAlice 1 sampleFields 9).users ∧
     (applyUserUpdate sampleFields 9 (userRowOf db0 aliceUser 0)).created
        = (userRowOf db0 aliceUser 0).created ∧
     (applyUserUpdate sampleFields 9 (userRowOf db0 aliceUser 0)).last_updated
        = some 9) ∧
    (∃ fr, dbRoot.projects = db0.projects ++ [projectRowOf db0 rootProj fr 0] ∧
      (projectRowOf db0 rootProj fr 0).created = 0 ∧
      (projectRowOf db0 rootProj fr 0).last_updated = none) ∧
    (applyProjectUpdate sampleProjFields 9 (projectRowOf db0 rootProj 1 0) ∈
        (updateProject dbRoot 1 sampleProjFields 9).projects ∧
     (applyProjectUpdate sampleProjFields 9
        (projectRowOf db0 rootProj 1 0)).created
        = (projectRowOf db0 rootProj 1 0).created ∧
     (applyProjectUpdate sampleProjFields 9
        (projectRowOf db0 rootProj 1 0)).last_updated = some 9) :=
  ⟨c4_timestamps.1 db0 dbAlice aliceUser 0 (by decide),
   c4_timestamps.2.1 dbAlice 1 sampleFields 9 (userRowOf db0 aliceUser 0)
     (by decide) (by decide),
   c4_timestamps.2.2.1 db0 dbRoot rootProj 0 (by decide),
   c4_timestamps.2.2.2 dbRoot 1 sampleProjFields 9
     (projectRowOf db0 rootProj 1 0) (by decide) (by decide)⟩

/-- Claim C5: constructing a User with given field values and reading the
stored row back after a successful insert returns identical values for
username, email, password, public_key, first_name, last_name,
contact_number, institution and enabled; only `id` and the timestamps are
system-assigned. -/
theorem c5_user_roundtrip :
    ∀ (db : DB) (t : Nat) (username email : String)
      (password : Option String) (first_name last_name institution : String)
      (contact_number public_key : Option String) (enabled : Bool),
      userLenOk (IlifuUser.init username email password first_name last_name
        institution contact_number public_key enabled) →
      (¬ ∃ r ∈ db.users, r.username = username) →
      ∃ db', insertUser db (IlifuUser.init username email password
          first_name last_name institution contact_number public_key enabled)
          t = .ok db' ∧
        ∃ r ∈ db'.users, r.username = username ∧ r.email = email ∧
          r.password = password ∧ r.public_key = public_key ∧
          r.first_name = first_name ∧ r.last_name = last_name ∧
          r.contact_number = contact_number ∧ r.institution = institution ∧
          r.enabled = enabled := by
  intro db t username email password fn ln inst cn pk en hlen hfresh
  have h : insertUser db
      (IlifuUser.init username email password fn ln inst cn pk en) t =
      .ok ⟨db.users ++
             [userRowOf db
               (IlifuUser.init username email password fn ln inst cn pk en) t],
           db.projects, db.memberships, db.nextUserId + 1,
           db.nextProjectId⟩ := by
    have hfresh' : ¬ ∃ r ∈ db.users, r.username =
        (IlifuUser.init username email password fn ln inst cn pk en).username :=
      hfresh
    unfold insertUser
    rw [if_neg hfresh', if_pos hlen]
  refine ⟨_, h, userRowOf db
      (IlifuUser.init username email password fn ln inst cn pk en) t,
    by simp, rfl, rfl, rfl, rfl, rfl, rfl, rfl, rfl, rfl⟩

/-- Witness for C5 at a concrete input: inserting a freshly constructed
user "bob" into the empty database succeeds and the stored row carries
exactly the constructed field values. -/
theorem c5_witness :
    ∃ db', insertUser db0 (IlifuUser.init "bob" "bob@example.org" none
        "Bob" "Mkize" "SARAO" none none true) 3 = .ok db' ∧
      ∃ r ∈ db'.users, r.username = "bob" ∧ r.email = "bob@example.org" ∧
        r.password = none ∧ r.public_key = none ∧
        r.first_name = "Bob" ∧ r.last_name = "Mkize" ∧
        r.contact_number = none ∧ r.institution = "SARAO" ∧
        r.enabled = true :=
  c5_user_roundtrip db0 3 "bob" "bob@example.org" none "Bob" "Mkize"
    "SARAO" none none true (by decide) (by decide)

/-- Claim C6: a `project_user` row referencing a nonexistent project id or
a nonexistent user id is rejected with a foreign-key violation (the
`ForeignKey` declarations on `project_id` and `user_id`); no row is
created. -/
theorem c6_membership_fk :
    ∀ (db : DB) (pid uid t : Nat),
      (¬ ∃ r ∈ db.projects, r.id = pid) ∨ (¬ ∃ r ∈ db.users, r.id = uid) →
      insertMembership db pid uid t = .error .foreignKeyViolation := by
  intro db pid uid t h
  have hneg : ¬ ((∃ r ∈ db.projects, r.id = pid) ∧
      (∃ r ∈ db.users, r.id = uid)) := by
    rintro ⟨h1, h2⟩
    rcases h with hl | hr
    · exact hl h1
    · exact hr h2
  unfold insertMembership
  rw [if_neg hneg]

/-- Witness for C6: in the empty database, a membership row for project 1
and user 1 (neither exists) is rejected with a foreign-key violation. -/
theorem c6_witness :
    insertMembership db0 1 1 0 = .error .foreignKeyViolation :=
  c6_membership_fk db0 1 1 0 (Or.inl (by decide))

/-- Claim C7: the schema initializer (`Base.metadata.create_all`) is
idempotent: on a store already holding the `ilifu_user`, `project` and
`project_user` structures it is a no-op — it creates only absent tables
and never drops or alters existing ones. -/
theorem c7_create_all_idempotent :
    ∀ s : Store, hasTable s "ilifu_user" → hasTable s "project" →
      hasTable s "project_user" → createAll s = s := by
  intro s h1 h2 h3
  simp [createAll, metadataTables, ilifu_user_table, project_table,
        project_user_table, h1, h2, h3]

/-- Witness for C7: a store freshly initialized from empty holds the three
tables, and re-running the initializer on it changes nothing. -/
theorem c7_witness :
    hasTable initStore "ilifu_user" ∧ hasTable initStore "project" ∧
    hasTable initStore "project_user" ∧ createAll initStore = initStore :=
  ⟨by decide, by decide, by decide,
   c7_create_all_idempotent initStore (by decide) (by decide) (by decide)⟩

/-- Claim C9: the schema's `String(n)` limits are enforced by the store:
any successfully inserted User has username, email, first_name and
last_name of at most 120 characters, password of at most 128 and
contact_number of at most 20; any successfully inserted Project has a name
of at most 128 characters (equivalently, a value exceeding its limit is
rejected). -/
theorem c9_string_length_limits :
    (∀ (db db' : DB) (u : IlifuUser) (t : Nat),
      insertUser db u t = .ok db' →
      u.username.length ≤ 120 ∧ u.email.length ≤ 120 ∧
      u.first_name.length ≤ 120 ∧ u.last_name.length ≤ 120 ∧
      (∀ s, u.password = some s → s.length ≤ 128) ∧
      (∀ s, u.contact_number = some s → s.length ≤ 20)) ∧
    (∀ (db db' : DB) (p : Project) (t : Nat),
      insertProject db p t = .ok db' → p.name.length ≤ 128) := by
  constructor
  · intro db db' u t h
    unfold insertUser at h
    split at h
    · simp at h
    · split at h
      · rename_i hlen
        obtain ⟨h1, h2, h3, h4, h5, h6⟩ := hlen
        refine ⟨h1, h2, h4, h5, ?_, ?_⟩
        · intro s hs
          rw [hs] at h3
          exact h3
        · intro s hs
          rw [hs] at h6
          exact h6
      · simp at h
  · intro db db' p t h
    unfold insertProject at h
    split at h
    · simp at h
    · split at h
      · rename_i hlen
        exact hlen
      · simp at h

/-- Witness for C9: the successful concrete inserts of `aliceUser` and
`rootProj` yield the instantiated bounds. -/
theorem c9_witness :
    (aliceUser.username.length ≤ 120 ∧ aliceUser.email.length ≤ 120 ∧
     aliceUser.first_name.length ≤ 120 ∧ aliceUser.last_name.length ≤ 120 ∧
     (∀ s, aliceUser.password = some s → s.length ≤ 128) ∧
     (∀ s, aliceUser.contact_number = some s → s.length ≤ 20)) ∧
    rootProj.name.length ≤ 128 :=
  ⟨c9_string_length_limits.1 db0 dbAlice aliceUser 0 (by decide),
   c9_string_length_limits.2 db0 dbRoot rootProj 0 (by decide)⟩

/-- Claim C10: `Project.__init__` accepts only name, pi_user_id,
resource_tree_posn, parent_resource_fraction, allocated_resources and
resource_limits, leaving `enabled`, `co_pi_user_id` and `admin_user_id`
unset; at insert the store's defaults apply (`enabled` becomes true via
its `server_default`, the two references stay NULL); the User constructor,
by contrast, accepts `enabled`, with default false. -/
theorem c10_ctor_fields :
    (∀ (name : String) (pi : Option Nat) (posn : List Int)
       (frac : Option ℚ) (alloc lims : Option String),
      (Project.init name pi posn frac alloc lims).enabled = none ∧
      (Project.init name pi posn frac alloc lims).co_pi_user_id = none ∧
      (Project.init name pi posn frac alloc lims).admin_user_id = none) ∧
    (∀ (db db' : DB) (p : Project) (t : Nat),
      insertProject db p t = .ok db' → p.enabled = none →
      ∃ fr, db'.projects = db.projects ++ [projectRowOf db p fr t] ∧
        (projectRowOf db p fr t).enabled = true ∧
        (projectRowOf db p fr t).co_pi_user_id = p.co_pi_user_id ∧
        (projectRowOf db p fr t).admin_user_id = p.admin_user_id) ∧
    (∀ (username email : String) (password : Option String)
       (first_name last_name institution : String)
       (contact_number public_key : Option String) (enabled : Bool),
      (IlifuUser.init username email password first_name last_name
        institution contact_number public_key enabled).enabled = enabled) ∧
    (IlifuUser.init "u" "e@f" none "F" "L" "I").enabled = false := by
  refine ⟨fun _ _ _ _ _ _ => ⟨rfl, rfl, rfl⟩, ?_,
          fun _ _ _ _ _ _ _ _ _ => rfl, rfl⟩
  intro db db' p t h hen
  obtain ⟨fr, _, hproj⟩ := insertProject_ok h
  exact ⟨fr, hproj, by simp [projectRowOf, hen], rfl, rfl⟩

/-- Witness for C10: inserting `rootProj` (built by the constructor, so
`enabled` is unset) into the empty database stores a row with
`enabled = true` and NULL co-PI and admin references. -/
theorem c10_witness :
    ∃ fr, dbRoot.projects = db0.projects ++ [projectRowOf db0 rootProj fr 0] ∧
      (projectRowOf db0 rootProj fr 0).enabled = true ∧
      (projectRowOf db0 rootProj fr 0).co_pi_user_id
        = rootProj.co_pi_user_id ∧
      (projectRowOf db0 rootProj fr 0).admin_user_id
        = rootProj.admin_user_id :=
  c10_ctor_fields.2.1 db0 dbRoot rootProj 0 (by decide) rfl

end IlifuDB

namespace IlifuDB

theorem insertProject_ok_conditions {db db' : DB} {p : Project} {t : Nat}
    (h : insertProject db p t = .ok db') :
    (¬ ∃ r ∈ db.projects, r.name = p.name) ∧ p.name.length ≤ 128 ∧
    (∃ f, p.parent_resource_fraction = some f) ∧
    userFkOk db p.pi_user_id ∧ userFkOk db p.co_pi_user_id ∧
    userFkOk db p.admin_user_id := by
  unfold insertProject at h
  split at h
  · simp at h
  · rename_i hdup
    split at h
    · rename_i hlen
      split at h
      · simp at h
      · rename_i f hf
        split at h
        · rename_i hfk
          exact ⟨hdup, hlen, ⟨f, hf⟩, hfk.1, hfk.2.1, hfk.2.2⟩
        · simp at h
    · simp at h

theorem insertProject_ok_of (db : DB) (p : Project) (t : Nat) (f : ℚ)
    (hdup : ¬ ∃ r ∈ db.projects, r.name = p.name)
    (hlen : p.name.length ≤ 128)
    (hf : p.parent_resource_fraction = some f)
    (hfk : userFkOk db p.pi_user_id ∧ userFkOk db p.co_pi_user_id ∧
           userFkOk db p.admin_user_id) :
    insertProject db p t =
      .ok ⟨db.users, db.projects ++ [projectRowOf db p f t],
           db.memberships, db.nextUserId, db.nextProjectId + 1⟩ := by
  unfold insertProject
  rw [if_neg hdup, if_pos hlen]
  simp only [hf]
  rw [if_pos hfk]

/-- Counterexample to claim C2 as stated: the schema admits a Project
record with a NULL `pi_user_id` that is not the root project —
`idiaNoPi` sits at tree position `[1,1]` (depth 2, not `[1]`), has no PI,
and its insertion succeeds. -/
theorem c2_counterexample :
    insertProject db0 idiaNoPi 0 = .ok dbIdia ∧
    ∃ r ∈ dbIdia.projects, r.pi_user_id = none ∧
      r.resource_tree_posn ≠ [1] ∧ r.resource_tree_posn.length ≠ 1 :=
  ⟨rfl, by decide⟩

/-- Claim C2 (amended): `pi_user_id` is nullable for every project, root
or not — the schema places no root-only restriction on it: whenever a
project insertion succeeds, the same insertion with `pi_user_id` set to
NULL also succeeds.  (That the root has no PI is documented intent, not a
constraint enforced by the model.) -/
theorem c2_amended_pi_nullable :
    ∀ (db db' : DB) (p : Project) (t : Nat),
      insertProject db p t = .ok db' →
      resOk (insertProject db (Project.withNullPi p) t) = true := by
  intro db db' p t h
  obtain ⟨hdup, hlen, ⟨f, hf⟩, _, hco, had⟩ := insertProject_ok_conditions h
  have hdup' : ¬ ∃ r ∈ db.projects, r.name = (Project.withNullPi p).name :=
    hdup
  have hlen' : (Project.withNullPi p).name.length ≤ 128 := hlen
  have hf' : (Project.withNullPi p).parent_resource_fraction = some f := hf
  have hfk' : userFkOk db (Project.withNullPi p).pi_user_id ∧
      userFkOk db (Project.withNullPi p).co_pi_user_id ∧
      userFkOk db (Project.withNullPi p).admin_user_id :=
    ⟨trivial, hco, had⟩
  rw [insertProject_ok_of db (Project.withNullPi p) t f hdup' hlen' hf' hfk']
  rfl

/-- Witness for the amended C2: `xProj` (PI = user 1) inserts successfully
into `dbAlice`, and so does its PI-less variant. -/
theorem c2_amended_witness :
    resOk (insertProject dbAlice (Project.withNullPi xProj) 4) = true :=
  c2_amended_pi_nullable dbAlice dbAliceX xProj 4 rfl

/-- Counterexample to claim C3 as stated: the schema does NOT admit a root
project with an unset `parent_resource_fraction` — the column is
`nullable=False`, so `rootNoFrac` (position `[1]`, fraction unset) is
rejected with a NOT NULL violation; and the schema enforces no (0,1]
range — `bigFracProj`, whose fraction is 2, is admitted. -/
theorem c3_counterexample :
    insertProject db0 rootNoFrac 0 = .error .notNullViolation ∧
    ∃ db', insertProject db0 bigFracProj 0 = .ok db' ∧
      ∃ r ∈ db'.projects, ¬ r.parent_resource_fraction ≤ 1 :=
  ⟨rfl, dbBig, rfl, by decide⟩

/-- Claim C3 (amended): `parent_resource_fraction` is required (NOT NULL)
for every project, the root included — a project with an unset fraction is
never admitted — and the schema does not constrain the fraction's range:
whenever a project insertion succeeds, replacing its fraction by any
rational (inside (0,1] or not) still succeeds.  The (0,1] range is
documented intent only. -/
theorem c3_amended_fraction :
    (∀ (db : DB) (p : Project) (t : Nat),
      p.parent_resource_fraction = none →
      resOk (insertProject db p t) = false) ∧
    (∀ (db db' : DB) (p : Project) (t : Nat) (q : ℚ),
      insertProject db p t = .ok db' →
      resOk (insertProject db (Project.withFraction p q) t) = true) := by
  constructor
  · intro db p t hf
    unfold insertProject
    split
    · rfl
    · split
      · simp only [hf]
        rfl
      · rfl
  · intro db db' p t q h
    obtain ⟨hdup, hlen, _, hpi, hco, had⟩ := insertProject_ok_conditions h
    have hdup' : ¬ ∃ r ∈ db.projects,
        r.name = (Project.withFraction p q).name := hdup
    have hlen' : (Project.withFraction p q).name.length ≤ 128 := hlen
    have hf' : (Project.withFraction p q).parent_resource_fraction = some q :=
      rfl
    have hfk' : userFkOk db (Project.withFraction p q).pi_user_id ∧
        userFkOk db (Project.withFraction p q).co_pi_user_id ∧
        userFkOk db (Project.withFraction p q).admin_user_id :=
      ⟨hpi, hco, had⟩
    rw [insertProject_ok_of db (Project.withFraction p q) t q hdup' hlen'
        hf' hfk']
    rfl

/-- Witness for the amended C3: `rootNoFrac` (fraction unset) is rejected,
while `rootProj` re-inserted with fraction 7/2 — outside (0,1] — is
admitted. -/
theorem c3_amended_witness :
    resOk (insertProject db0 rootNoFrac 0) = false ∧
    resOk (insertProject db0 (Project.withFraction rootProj (7/2)) 0)
      = true :=
  ⟨c3_amended_fraction.1 db0 rootNoFrac 0 rfl,
   c3_amended_fraction.2 db0 dbRoot rootProj 0 (7/2) rfl⟩

end IlifuDB

namespace ResourceTree

theorem lookupPath_mem_eq {ps : List SProject} {path : List Int}
    {q : SProject} (h : lookupPath ps path = some q) :
    q ∈ ps ∧ q.resource_tree_posn = path := by
  unfold lookupPath at h
  refine ⟨List.mem_of_find?_eq_some h, ?_⟩
  have := List.find?_some h
  simpa using this

theorem lookupPath_isSome {ps : List SProject} {path : List Int}
    (h : ∃ p ∈ ps, p.resource_tree_posn = path) :
    ∃ q, lookupPath ps path = some q := by
  obtain ⟨p, hp, hpath⟩ := h
  unfold lookupPath
  have hsome : (ps.find? (fun r => r.resource_tree_posn = path)).isSome := by
    rw [List.find?_isSome]
    exact ⟨p, hp, by simp [hpath]⟩
  exact Option.isSome_iff_exists.mp hsome

theorem absoluteShare_bounded_aux (ps : List SProject) (hv : validTree ps) :
    ∀ (n : Nat) (path : List Int), path.length ≤ n → path ≠ [] →
      (∃ p ∈ ps, p.resource_tree_posn = path) →
      ∃ s, absoluteShare ps path = some s ∧ 0 ≤ s ∧ s ≤ 1 := by
  intro n
  induction n with
  | zero =>
    intro path hlen hne _
    cases path with
    | nil => exact absurd rfl hne
    | cons a l => simp at hlen
  | succ n ih =>
    intro path hlen hne hex
    obtain ⟨hroot, hnonempty, hparent, huniq, hsum, hfrac⟩ := hv
    cases path with
    | nil => exact absurd rfl hne
    | cons i tail =>
      cases tail with
      | nil =>
        obtain ⟨q, hq⟩ := lookupPath_isSome hex
        refine ⟨1, ?_, by norm_num, le_refl 1⟩
        simp [absoluteShare, hq]
      | cons j rest =>
        obtain ⟨q, hq⟩ := lookupPath_isSome hex
        obtain ⟨hqmem, hqpath⟩ := lookupPath_mem_eq hq
        have hlen1 : q.resource_tree_posn.length ≠ 1 := by
          rw [hqpath]
          simp
        obtain ⟨hfne, hfpos, hfle⟩ := hfrac q hqmem hlen1
        cases hfq : q.parent_resource_fraction with
        | none => exact absurd hfq hfne
        | some f =>
          rw [hfq] at hfpos hfle
          simp only [Option.getD_some] at hfpos hfle
          obtain ⟨qq, hqqmem, hqqpath⟩ := hparent q hqmem hlen1
          have hdlne : (i :: j :: rest).dropLast ≠ [] := by
            simp [List.dropLast]
          have hdllen : (i :: j :: rest).dropLast.length ≤ n := by
            have hdl := List.length_dropLast (i :: j :: rest)
            simp only [List.length_cons] at hdl hlen ⊢
            omega
          have hex' : ∃ p ∈ ps,
              p.resource_tree_posn = (i :: j :: rest).dropLast :=
            ⟨qq, hqqmem, by rw [hqqpath, hqpath]⟩
          obtain ⟨s, hs, hs0, hs1⟩ :=
            ih ((i :: j :: rest).dropLast) hdllen hdlne hex'
          refine ⟨f * s, ?_, mul_nonneg (le_of_lt hfpos) hs0,
                  mul_le_one₀ hfle hs0 hs1⟩
          rw [absoluteShare]
          simp only [hq, hfq, hs]

/-- Claim C8 (spec-modelled: `absolute_share` and `validate_tree` are not
present in src/models.py; they are modelled from spec sections 4.1 and 8):
for every project P of a valid resource tree, `absolute_share(P)` — the
product of `parent_resource_fraction` along the root-to-P path — is
defined and lies in [0,1], and `absolute_share(root)` (a depth-1 node)
equals 1. -/
theorem c8_absolute_share :
    ∀ (ps : List SProject) (p : SProject), validTree ps → p ∈ ps →
      (∃ s, absoluteShare ps p.resource_tree_posn = some s ∧
        0 ≤ s ∧ s ≤ 1) ∧
      (p.resource_tree_posn.length = 1 →
        absoluteShare ps p.resource_tree_posn = some 1) := by
  intro ps p hv hmem
  have hne : p.resource_tree_posn ≠ [] := hv.2.1 p hmem
  constructor
  · exact absoluteShare_bounded_aux ps hv p.resource_tree_posn.length
      p.resource_tree_posn le_rfl hne ⟨p, hmem, rfl⟩
  · intro h1
    obtain ⟨a, ha⟩ := List.length_eq_one.mp h1
    obtain ⟨q, hq⟩ := lookupPath_isSome
      (⟨p, hmem, rfl⟩ : ∃ x ∈ ps, x.resource_tree_posn
        = p.resource_tree_posn)
    rw [ha] at hq ⊢
    simp [absoluteShare, hq]

theorem specTree_valid : validTree specTree := by
  refine ⟨by decide, by decide, by decide, ?_, ?_, ?_⟩
  · intro p hp q hq hpq
    simp only [specTree, List.mem_cons, List.not_mem_nil, or_false] at hp hq
    rcases hp with rfl | rfl | rfl <;> rcases hq with rfl | rfl | rfl <;>
      first
        | rfl
        | exact absurd hpq (by decide)
  · intro p hp
    simp only [specTree, List.mem_cons, List.not_mem_nil, or_false] at hp
    rcases hp with rfl | rfl | rfl <;>
      · simp only [childFracSum, specTree, List.filter, decide_eq_true_eq]
        norm_num
  · intro p hp hlen1
    simp only [specTree, List.mem_cons, List.not_mem_nil, or_false] at hp
    rcases hp with rfl | rfl | rfl
    · exact absurd rfl hlen1
    · exact ⟨by simp, by norm_num, by norm_num⟩
    · exact ⟨by simp, by norm_num, by norm_num⟩

/-- Witness for C8 on the spec's scenario tree (root at [1], IDIA at [1,1]
with fraction 0.30, LADUMA at [1,1,1] with fraction 0.20): LADUMA's
absolute share is defined and lies in [0,1], and the root's share is 1. -/
theorem c8_witness :
    ((∃ s, absoluteShare specTree laduma.resource_tree_posn = some s ∧
        0 ≤ s ∧ s ≤ 1) ∧
     (laduma.resource_tree_posn.length = 1 →
        absoluteShare specTree laduma.resource_tree_posn = some 1)) ∧
    ((∃ s, absoluteShare specTree
        (SProject.mk [1] none).resource_tree_posn = some s ∧
        0 ≤ s ∧ s ≤ 1) ∧
     ((SProject.mk [1] none).resource_tree_posn.length = 1 →
        absoluteShare specTree
          (SProject.mk [1] none).resource_tree_posn = some 1)) :=
  ⟨c8_absolute_share specTree laduma specTree_valid
      (by simp [specTree, laduma]),
   c8_absolute_share specTree ⟨[1], none⟩ specTree_valid
      (by simp [specTree])⟩

end ResourceTree
